import Mathlib

/-!
# Shallow embedding of `s7client-ts` (src/src/datatypes.ts, src/src/index.ts)

This file embeds the codec registry (`datatypes.ts`), the address planner and
transaction executor (`readDB`, `readVars`, `writeVars`, `readVar`, `writeVar`
in `index.ts`), and the auto-reconnect backoff of `autoConnect`, and proves the
spec claims about them.

Modelling conventions:
* A Node `Buffer` is a `List Nat` of bytes (each `< 256`).
* A JS number that may be `NaN` (the `Start` field of a planned item) is the
  inductive `JsNum`; integral JS numbers elsewhere are `Nat`/`Int`.
* Fallible JS operations (`Buffer` reads/writes that throw on out-of-range
  input) return `Option`.
* `REAL` values are modelled at the IEEE-754 binary32 bit-pattern level: a
  representable float is identified with its 32-bit big-endian pattern, the
  exact bytes `writeFloatBE` stores and `readFloatBE` fetches.
-/

/-- The eight primitive type tags of `datatypes.ts` (`S7DbVarType.type`). -/
inductive S7Type where
  | BOOL | BYTE | WORD | DWORD | CHAR | INT | DINT | REAL
deriving DecidableEq, Repr

/-- The six area tags `'pe' | 'pa' | 'mk' | 'db' | 'ct' | 'tm'`. -/
inductive S7AreaTag where
  | pe | pa | mk | db | ct | tm
deriving DecidableEq, Repr

/-- `S7Area` object of datatypes.ts: transport area codes, looked up in
`readVars`/`writeVars` via the uppercased area tag. -/
def S7AreaCode : S7AreaTag → Nat
  | .pe => 0x81
  | .pa => 0x82
  | .mk => 0x83
  | .db => 0x84
  | .ct => 0x1C
  | .tm => 0x1D

/-- `S7WordLen` enum of datatypes.ts. -/
inductive S7WordLen where
  | S7WLBit | S7WLByte | S7WLWord | S7WLDWord | S7WLReal | S7WLCounter | S7WLTimer
deriving DecidableEq, Repr

/-- The numeric values of the `S7WordLen` enum members. -/
def S7WordLen.code : S7WordLen → Nat
  | .S7WLBit => 0x01
  | .S7WLByte => 0x02
  | .S7WLWord => 0x04
  | .S7WLDWord => 0x06
  | .S7WLReal => 0x08
  | .S7WLCounter => 0x1C
  | .S7WLTimer => 0x1D

/-- `Datatypes[t].bytes` from datatypes.ts.  BOOL and CHAR are written out
literally there; the rest come from the `_gen` calls. -/
def Datatypes.bytes : S7Type → Nat
  | .BOOL => 1
  | .BYTE => 1
  | .WORD => 2
  | .DWORD => 4
  | .CHAR => 1
  | .INT => 2
  | .DINT => 4
  | .REAL => 4

/-- `Datatypes[t].S7WordLen` from datatypes.ts. -/
def Datatypes.wordLen : S7Type → S7WordLen
  | .BOOL => .S7WLBit
  | .BYTE => .S7WLByte
  | .WORD => .S7WLWord
  | .DWORD => .S7WLDWord
  | .CHAR => .S7WLByte
  | .INT => .S7WLWord
  | .DINT => .S7WLDWord
  | .REAL => .S7WLReal

/-- A value a parser returns / a formatter consumes
(`boolean | number | string`).  Single-character strings are represented by
their character code; `REAL` numbers by their binary32 bit pattern. -/
inductive JsValue where
  | bool (b : Bool)
  | num (x : Int)
  | real (pattern : Nat)
  | str (code : Nat)
deriving DecidableEq, Repr

/-- `buffer.readUInt8(off)`: the byte at `off`; throws out of range. -/
def bufReadUInt8 (buf : List Nat) (off : Nat) : Option Nat :=
  if off < buf.length then some (buf.getD off 0) else none

/-- `buffer.readUInt16BE(off)`: big-endian 16-bit unsigned. -/
def bufReadUInt16BE (buf : List Nat) (off : Nat) : Option Nat :=
  if off + 2 ≤ buf.length then
    some (buf.getD off 0 * 256 + buf.getD (off + 1) 0)
  else none

/-- `buffer.readUInt32BE(off)`: big-endian 32-bit unsigned. -/
def bufReadUInt32BE (buf : List Nat) (off : Nat) : Option Nat :=
  if off + 4 ≤ buf.length then
    some (buf.getD off 0 * 2 ^ 24 + buf.getD (off + 1) 0 * 2 ^ 16 +
          buf.getD (off + 2) 0 * 256 + buf.getD (off + 3) 0)
  else none

/-- Reinterpret a `w`-bit unsigned value as two's-complement signed. -/
def toSigned (w : Nat) (u : Nat) : Int :=
  if u < 2 ^ (w - 1) then (u : Int) else (u : Int) - 2 ^ w

/-- `buffer.readInt16BE(off)`: big-endian 16-bit two's-complement. -/
def bufReadInt16BE (buf : List Nat) (off : Nat) : Option Int :=
  (bufReadUInt16BE buf off).map (toSigned 16)

/-- `buffer.readInt32BE(off)`: big-endian 32-bit two's-complement. -/
def bufReadInt32BE (buf : List Nat) (off : Nat) : Option Int :=
  (bufReadUInt32BE buf off).map (toSigned 32)

/-- `Datatypes[t].parser(buffer, offset = 0, bit = 0)`.

* `BOOL`: `(buffer.readUInt8(offset) >> bit & 1) === 1`.
* `CHAR`: `buffer.toString('ascii', offset, offset + 1)` — Node's ascii decode
  strips the high bit of the byte.
* `REAL`: `readFloatBE` — modelled as the binary32 bit pattern it reads.
* The `_gen` parsers ignore the `bit` argument. -/
def Datatypes.parser (t : S7Type) (buf : List Nat) (offset : Nat) (bit : Nat) :
    Option JsValue :=
  match t with
  | .BOOL => (bufReadUInt8 buf offset).map (fun b => .bool (b >>> bit % 2 = 1))
  | .BYTE => (bufReadUInt8 buf offset).map (fun b => .num b)
  | .WORD => (bufReadUInt16BE buf offset).map (fun u => .num u)
  | .DWORD => (bufReadUInt32BE buf offset).map (fun u => .num u)
  | .CHAR => (bufReadUInt8 buf offset).map (fun b => .str (b % 128))
  | .INT => (bufReadInt16BE buf offset).map .num
  | .DINT => (bufReadInt32BE buf offset).map .num
  | .REAL => (bufReadUInt32BE buf offset).map .real

/-- Big-endian byte decomposition of a `w`-byte unsigned value. -/
def beBytes : Nat → Nat → List Nat
  | 0, _ => []
  | w + 1, u => u / 256 ^ w % 256 :: beBytes w u

/-- `Datatypes[t].formatter(v)`.

* `BOOL`: `Buffer.from([v ? 0x01 : 0x00])`.
* `CHAR`: `Buffer.from(v, 'ascii')` — one byte `code & 0xFF` for a
  one-character string.
* `REAL`: `writeFloatBE` — stores the value's binary32 bit pattern big-endian.
* The `_gen` formatters call `Buffer.alloc(bytes)` then `writeXxxBE(v)`, which
  throws (`none`) when `v` is out of the type's range. -/
def Datatypes.formatter (t : S7Type) (v : JsValue) : Option (List Nat) :=
  match t, v with
  | .BOOL, .bool b => some [if b then 0x01 else 0x00]
  | .BYTE, .num x =>
      if 0 ≤ x ∧ x < 256 then some [x.toNat] else none
  | .WORD, .num x =>
      if 0 ≤ x ∧ x < 2 ^ 16 then some (beBytes 2 x.toNat) else none
  | .DWORD, .num x =>
      if 0 ≤ x ∧ x < 2 ^ 32 then some (beBytes 4 x.toNat) else none
  | .CHAR, .str c => some [c % 256]
  | .INT, .num x =>
      if -(2 ^ 15) ≤ x ∧ x < 2 ^ 15 then some (beBytes 2 ((x + 2 ^ 16).toNat % 2 ^ 16))
      else none
  | .DINT, .num x =>
      if -(2 ^ 31) ≤ x ∧ x < 2 ^ 31 then some (beBytes 4 ((x + 2 ^ 32).toNat % 2 ^ 32))
      else none
  | .REAL, .real p => if p < 2 ^ 32 then some (beBytes 4 p) else none
  | _, _ => none

/-- Value `v` is representable in type `t` (the domain on which the source's
`writeXxx` calls do not throw; for `CHAR`, a 7-bit ASCII character, since
Node's ascii decode strips the high bit). -/
def representable (t : S7Type) (v : JsValue) : Prop :=
  match t, v with
  | .BOOL, .bool _ => True
  | .BYTE, .num x => 0 ≤ x ∧ x < 256
  | .WORD, .num x => 0 ≤ x ∧ x < 2 ^ 16
  | .DWORD, .num x => 0 ≤ x ∧ x < 2 ^ 32
  | .CHAR, .str c => c < 128
  | .INT, .num x => -(2 ^ 15) ≤ x ∧ x < 2 ^ 15
  | .DINT, .num x => -(2 ^ 31) ≤ x ∧ x < 2 ^ 31
  | .REAL, .real p => p < 2 ^ 32
  | _, _ => False

instance (t : S7Type) (v : JsValue) : Decidable (representable t v) := by
  unfold representable
  cases t <;> cases v <;> infer_instance

/-! ## Variable descriptors and the address planner (index.ts) -/

/-- `S7DbVarAreaDbRead` of datatypes.ts: the descriptor `readDB` takes.
`bit` is optional; `value` is populated by the executor. -/
structure S7DbVarAreaDbRead where
  type : S7Type
  start : Nat
  bit : Option Nat := none
  value : Option JsValue := none
deriving DecidableEq, Repr

/-- `S7DbVarType` of datatypes.ts: the descriptor `readVars`/`writeVars` take.
`dbnr` is declared `number` but may be absent at runtime (`readVar` checks its
truthiness), hence `Option Nat`. -/
structure S7DbVarType where
  type : S7Type
  dbnr : Option Nat := none
  area : S7AreaTag
  start : Nat
  bit : Option Nat := none
  value : Option JsValue := none
deriving DecidableEq, Repr

/-- A JS number that may be `NaN`. -/
inductive JsNum where
  | num (n : Int)
  | nan
deriving DecidableEq, Repr

/-- JS addition: any operand `NaN` (here: an absent `bit` field coerced by
`+`) yields `NaN`. -/
def JsNum.add : JsNum → JsNum → JsNum
  | .num a, .num b => .num (a + b)
  | _, _ => .nan

/-- An absent optional number field used as a number (`v.bit as number`):
`undefined` behaves as `NaN` in arithmetic. -/
def jsField : Option Nat → JsNum
  | some n => .num n
  | none => .nan

/-- One planned item of `ReadMultiVars` (`MultiVarRead` of node-snap7). -/
structure MultiVarRead where
  Area : Nat
  WordLen : Nat
  DBNumber : Option Nat
  Start : JsNum
  Amount : Nat
deriving DecidableEq, Repr

/-- One planned item of `WriteMultiVars` (`MultiVarWrite`): a read item plus
the formatted payload.  `Data` is `none` when the formatter would throw or the
JS-level value is absent. -/
structure MultiVarWrite where
  Area : Nat
  WordLen : Nat
  DBNumber : Option Nat
  Start : JsNum
  Amount : Nat
  Data : Option (List Nat)
deriving DecidableEq, Repr

/-- The `Start` field computed by `readVars`/`writeVars`:
`v.type === 'BOOL' ? v.start * 8 + (v.bit as number) : v.start`. -/
def planStart (v : S7DbVarType) : JsNum :=
  if v.type = .BOOL then JsNum.add (.num (v.start * 8)) (jsField v.bit)
  else .num v.start

/-- The per-item mapping of `readVars` (index.ts lines 254-263). -/
def planReadItem (v : S7DbVarType) : MultiVarRead :=
  { Area := S7AreaCode v.area
    WordLen := (Datatypes.wordLen v.type).code
    DBNumber := v.dbnr
    Start := planStart v
    Amount := 1 }

/-- The binary32 pattern of NaN as `Math.fround` canonicalises it: exponent
bits set, top mantissa bit set.  `writeFloatBE(NaN)` stores these bytes. -/
def nanPattern : Nat := 0x7FC00000

/-- A binary32 pattern denotes NaN: exponent all ones, non-zero mantissa. -/
def isNaN32 (p : Nat) : Bool :=
  p / 2 ^ 23 % 256 == 255 && p % 2 ^ 23 != 0

/-- JS truthiness of a possibly-absent descriptor value (the BOOL formatter's
ternary `v ? 0x01 : 0x00`): `undefined`, `0`, `-0` and `NaN` are falsy; every
one-character string (even `"\x00"`) is truthy. -/
def jsTruthy : Option JsValue → Bool
  | none => false
  | some (.bool b) => b
  | some (.num x) => x != 0
  | some (.real p) => !(p == 0 || p == 2 ^ 31 || isNaN32 p)
  | some (.str _) => true

/-- `Datatypes[v.type].formatter(v.value)` as `writeVars` calls it inside
`vars.map`, i.e. at the JS call boundary where `v.value` may be absent:

* BOOL: the ternary is total — an absent or falsy value yields `0x00`.
* CHAR: `Buffer.from(value, 'ascii')` throws a `TypeError` (`none`) unless the
  value is a string.
* the `_gen` integer formatters apply `+value` first: `+undefined = NaN`
  passes Node's `value > max || value < min` check (both comparisons are
  false on NaN) and each stored byte of NaN is `0`, so an absent value
  produces zero bytes; an out-of-range number throws `ERR_OUT_OF_RANGE`
  (`none`).
* REAL: `writeFloatBE(+undefined)` likewise does not throw and stores NaN's
  canonical pattern.

Value shapes outside the per-type TS usage (a boolean or string fed to a
numeric formatter, an integral `.num` fed to REAL), whose JS coercions this
model does not reproduce, collapse to `none`; no theorem's success path
relies on them. -/
def jsFormatter (t : S7Type) (v : Option JsValue) : Option (List Nat) :=
  match t, v with
  | .BOOL, v => some [if jsTruthy v then 0x01 else 0x00]
  | .CHAR, some (.str c) => some [c % 256]
  | .CHAR, _ => none
  | .REAL, none => some (beBytes 4 nanPattern)
  | .REAL, some w => Datatypes.formatter .REAL w
  | t, none => some (beBytes (Datatypes.bytes t) 0)
  | t, some w => Datatypes.formatter t w

/-- The per-item mapping of `writeVars` (index.ts lines 293-303).  `Data` is
`none` exactly when the formatter call would throw. -/
def planWriteItem (v : S7DbVarType) : MultiVarWrite :=
  { Area := S7AreaCode v.area
    WordLen := (Datatypes.wordLen v.type).code
    DBNumber := v.dbnr
    Start := planStart v
    Amount := 1
    Data := jsFormatter v.type v.value }

/-- `toRead` of `readVars`: one item per descriptor, in input order. -/
def readVarsPlan (vars : List S7DbVarType) : List MultiVarRead :=
  vars.map planReadItem

/-- `toWrite` of `writeVars`: one item per descriptor, in input order. -/
def writeVarsPlan (vars : List S7DbVarType) : List MultiVarWrite :=
  vars.map planWriteItem

/-- `Number.MAX_SAFE_INTEGER`, the initial value of `offset` in `readDB`. -/
def maxSafeInteger : Nat := 2 ^ 53 - 1

/-- The `vars.forEach` scan of `readDB` (index.ts lines 221-228): the
accumulator is `(end, offset)`, starting at `(0, Number.MAX_SAFE_INTEGER)`;
each descriptor lowers `offset` to its `start` and raises `end` to
`start + bytes` when those bounds are exceeded. -/
def readDBScanStep (acc : Nat × Nat) (v : S7DbVarAreaDbRead) : Nat × Nat :=
  (if acc.1 < v.start + Datatypes.bytes v.type then v.start + Datatypes.bytes v.type
   else acc.1,
   if v.start < acc.2 then v.start else acc.2)

/-- The fold `readDB` runs: `(end, offset)` over the whole descriptor list. -/
def readDBScan (vars : List S7DbVarAreaDbRead) : Nat × Nat :=
  vars.foldl readDBScanStep (0, maxSafeInteger)

/-- The contiguous range `readDB` asks the transport for: `none` when the
descriptor list is empty (the promise resolves `[]` before any planning),
otherwise `(offset, end - offset)`. -/
def readDBPlan (vars : List S7DbVarAreaDbRead) : Option (Nat × Nat) :=
  if vars = [] then none
  else some ((readDBScan vars).2, (readDBScan vars).1 - (readDBScan vars).2)

/-- The transport primitives of node-snap7 that the three operations invoke. -/
inductive TransportCall where
  | dbRead (dbnr offset length : Nat)
  | readMulti (items : List MultiVarRead)
  | writeMulti (items : List MultiVarWrite)
deriving DecidableEq, Repr

/-- The transport calls `readDB` makes: none on an empty descriptor list,
otherwise exactly one `DBRead` of the planned range. -/
def readDBCalls (DBNr : Nat) (vars : List S7DbVarAreaDbRead) : List TransportCall :=
  match readDBPlan vars with
  | none => []
  | some (offset, length) => [.dbRead DBNr offset length]

/-- The transport calls `readVars` makes: it invokes `ReadMultiVars` on the
planned item list unconditionally — there is no empty-list early return. -/
def readVarsCalls (vars : List S7DbVarType) : List TransportCall :=
  [.readMulti (readVarsPlan vars)]

/-- `writeVars` builds `toWrite` eagerly inside the async function, running
every formatter before the promise wrapping `WriteMultiVars`; a formatter
throw therefore rejects the call with no transport interaction. -/
def writeVarsThrows (vars : List S7DbVarType) : Bool :=
  vars.any fun v => (jsFormatter v.type v.value).isNone

/-- The transport calls `writeVars` makes: none when a formatter throws while
building `toWrite`, otherwise `WriteMultiVars` — with no empty-list early
return. -/
def writeVarsCalls (vars : List S7DbVarType) : List TransportCall :=
  if writeVarsThrows vars then [] else [.writeMulti (writeVarsPlan vars)]

/-! ## Transaction executor (index.ts) -/

/-- One per-item result of `ReadMultiVars`/`WriteMultiVars`: a status code and
(for reads) the raw bytes. -/
structure ItemResult where
  Result : Nat
  Data : List Nat := []
deriving DecidableEq, Repr

/-- Errors surfaced by `_getErr`, `readVar`'s validation, and the synchronous
`TypeError`/`ERR_OUT_OF_RANGE` a write formatter throws while `toWrite` is
being built. -/
inductive S7Error where
  | transport (code : Nat)
  | batch (codes : List Nat)
  | invalidDescriptor
  | formatThrow
deriving DecidableEq, Repr

/-- The `errs` array collected by the demux loops of `readVars`/`writeVars`:
the status codes of the items with non-zero `Result`, in item order. -/
def batchErrs (vars : List S7DbVarType) (res : List ItemResult) : List Nat :=
  (vars.zip res).filterMap (fun p => if p.2.Result ≠ 0 then some p.2.Result else none)

/-- The descriptors `readVars` enriches (and emits): for each position with
`Result === 0`, the input descriptor with `value` set to
`Datatypes[v.type].parser(res[i].Data)` — offset and bit both defaulted. -/
def readVarsOk (vars : List S7DbVarType) (res : List ItemResult) : List S7DbVarType :=
  (vars.zip res).filterMap (fun p =>
    if p.2.Result = 0 then
      some { p.1 with value := Datatypes.parser p.1.type p.2.Data 0 0 }
    else none)

/-- The outcome of `readVars` once the transport has answered: a top-level
transport error rejects; otherwise any non-zero item code rejects with the
collected code list; otherwise the enriched descriptors are resolved. -/
def readVarsOutcome (vars : List S7DbVarType) (resp : Except Nat (List ItemResult)) :
    Except S7Error (List S7DbVarType) :=
  match resp with
  | .error e => .error (.transport e)
  | .ok res =>
      if batchErrs vars res = [] then .ok (readVarsOk vars res)
      else .error (.batch (batchErrs vars res))

/-- The `value` events `readVars` emits: one per item with `Result === 0`,
fired inside the demux loop (so they fire even when a later non-zero code
makes the whole call reject). -/
def readVarsEmits (vars : List S7DbVarType) (resp : Except Nat (List ItemResult)) :
    List S7DbVarType :=
  match resp with
  | .error _ => []
  | .ok res => readVarsOk vars res

/-- The outcome of `writeVars`: same all-or-nothing demux as `readVars`, but
the resolved descriptors are the inputs unchanged. -/
def writeVarsOutcome (vars : List S7DbVarType) (resp : Except Nat (List ItemResult)) :
    Except S7Error (List S7DbVarType) :=
  match resp with
  | .error e => .error (.transport e)
  | .ok res =>
      if batchErrs vars res = [] then
        .ok ((vars.zip res).filterMap (fun p => if p.2.Result = 0 then some p.1 else none))
      else .error (.batch (batchErrs vars res))

/-- The full behavior of a `writeVars` call: the eager formatter phase
rejects with the thrown error before the transport runs; otherwise the demux
outcome of the transport's response. -/
def writeVarsRun (vars : List S7DbVarType) (resp : Except Nat (List ItemResult)) :
    Except S7Error (List S7DbVarType) :=
  if writeVarsThrows vars then .error .formatThrow
  else writeVarsOutcome vars resp

/-- The `value` events `writeVars` emits: its demux loop contains no
`this.emit('value', v)` call, so nothing is ever emitted. -/
def writeVarsEmits (_vars : List S7DbVarType) (_resp : Except Nat (List ItemResult)) :
    List S7DbVarType :=
  []

/-- The decode step of `readDB` (index.ts lines 232-236): every descriptor's
value is parsed from the returned buffer at `v.start - offset` with `v.bit`
(defaulted to 0 by the parser signature). -/
def readDBDecode (vars : List S7DbVarAreaDbRead) (offset : Nat) (buf : List Nat) :
    List S7DbVarAreaDbRead :=
  vars.map (fun v =>
    { v with value := Datatypes.parser v.type buf (v.start - offset) (v.bit.getD 0) })

/-- The outcome of `readDB`: empty input resolves `[]` with no transport
interaction; otherwise one `DBRead` of the planned range, whose failure
rejects and whose success decodes every descriptor. -/
def readDBOutcome (vars : List S7DbVarAreaDbRead) (resp : Except Nat (List Nat)) :
    Except S7Error (List S7DbVarAreaDbRead) :=
  if vars = [] then .ok []
  else
    match resp with
    | .error e => .error (.transport e)
    | .ok buf => .ok (readDBDecode vars (readDBScan vars).2 buf)

/-- The `value` events `readDB` emits: one per descriptor, inside the decode
loop, on success only. -/
def readDBEmits (vars : List S7DbVarAreaDbRead) (resp : Except Nat (List Nat)) :
    List S7DbVarAreaDbRead :=
  if vars = [] then []
  else
    match resp with
    | .error _ => []
    | .ok buf => readDBDecode vars (readDBScan vars).2 buf

/-! ## Single-variable convenience operations (index.ts) -/

/-- JS truthiness test `!v.dbnr`: true for an absent field and for `0`. -/
def jsFalsy : Option Nat → Bool
  | none => true
  | some n => n = 0

/-- `readVar`'s guard (index.ts line 331):
`if(v.area === 'db' && !v.dbnr) throw ...`. -/
def readVarGuard (v : S7DbVarType) : Bool :=
  v.area = S7AreaTag.db && jsFalsy v.dbnr

/-- Transport calls of `readVar`: none when the guard throws, otherwise those
of `readVars([v])`. -/
def readVarCalls (v : S7DbVarType) : List TransportCall :=
  if readVarGuard v then [] else readVarsCalls [v]

/-- Outcome of `readVar`: guard failure is an `InvalidDescriptor` error before
any transport call; otherwise `readVars([v]).then(r => r[0])`. -/
def readVarOutcome (v : S7DbVarType) (resp : Except Nat (List ItemResult)) :
    Except S7Error (Option S7DbVarType) :=
  if readVarGuard v then .error .invalidDescriptor
  else (readVarsOutcome [v] resp).map List.head?

/-- Transport calls of `writeVar`: it has no guard at all — it always
delegates to `writeVars([v])`. -/
def writeVarCalls (v : S7DbVarType) : List TransportCall :=
  writeVarsCalls [v]

/-- Demux outcome of `writeVar`: `writeVars([v]).then(erg => erg[0])`, with
no validation of any kind, given that the transport answered. -/
def writeVarOutcome (v : S7DbVarType) (resp : Except Nat (List ItemResult)) :
    Except S7Error (Option S7DbVarType) :=
  (writeVarsOutcome [v] resp).map List.head?

/-- The full behavior of a `writeVar` call, formatter phase included. -/
def writeVarRun (v : S7DbVarType) (resp : Except Nat (List ItemResult)) :
    Except S7Error (Option S7DbVarType) :=
  (writeVarsRun [v] resp).map List.head?

/-! ## Auto-reconnect backoff (index.ts `autoConnect`, lines 117-142) -/

/-- `Math.round` on a non-negative rational: floor of `q + 1/2`. -/
def jsRound (q : Rat) : Nat :=
  (q + 1 / 2).floor.toNat

/-- The `retryDelay` update of a failed `_retry` (index.ts lines 123-124):
`retryDelay = Math.round(retryDelay * random(1.3, 1.7, true))`, then clamped
to `maxRetryDelay`. -/
def nextRetryDelay (maxRetryDelay d : Nat) (r : Rat) : Nat :=
  min (jsRound (d * r)) maxRetryDelay

/-- The events that touch (or per the spec should touch) the `retryDelay`
closure variable of one `autoConnect` invocation. -/
inductive AcEvent where
  | retryFail (r : Rat)
  | connectOk
  | disconnectNF
deriving DecidableEq, Repr

/-- How the code evolves `retryDelay`: only a failed retry changes it — a
successful connect and a non-manual disconnect (which merely triggers an
immediate `_retry`) leave it untouched. -/
def acStep (maxRetryDelay : Nat) (d : Nat) : AcEvent → Nat
  | .retryFail r => nextRetryDelay maxRetryDelay d r
  | .connectOk => d
  | .disconnectNF => d

/-- The `retryDelay` value after a sequence of events, starting from
`connectionCheckInterval`. -/
def acDelay (base maxRetryDelay : Nat) (evs : List AcEvent) : Nat :=
  evs.foldl (acStep maxRetryDelay) base

/-- Modelled from the spec: the backoff evolution §4.4 describes, where a
successful connect resets the delay to the base interval.  Kept only to be
compared against `acStep`, which the code actually implements. -/
def acStepSpec (base maxRetryDelay : Nat) (d : Nat) : AcEvent → Nat
  | .retryFail r => nextRetryDelay maxRetryDelay d r
  | .connectOk => base
  | .disconnectNF => d

/-- The delay after a sequence of events under the spec's reset-on-success
reading. -/
def acDelaySpec (base maxRetryDelay : Nat) (evs : List AcEvent) : Nat :=
  evs.foldl (acStepSpec base maxRetryDelay) base

/-! ## Claims -/

/-- Claim C1, counterexample: on an empty descriptor list, `readVars` and
`writeVars` do NOT make zero transport calls — each still invokes its
multi-item transport primitive, with an empty item list.  Only `readDB`
short-circuits. -/
theorem C1_counterexample :
    readVarsCalls [] ≠ [] ∧ writeVarsCalls [] ≠ [] := by
  decide

/-- Claim C1, amended: an empty descriptor list makes `readDB` resolve `[]`
with no transport call; `readVars`/`writeVars` still call
`ReadMultiVars`/`WriteMultiVars` with an empty item list, return `[]` when the
transport reports success, and emit nothing. -/
theorem C1_amended :
    (∀ DBNr : Nat, readDBCalls DBNr [] = []) ∧
    (∀ resp, readDBOutcome [] resp = .ok [] ∧ readDBEmits [] resp = []) ∧
    readVarsCalls [] = [.readMulti []] ∧
    writeVarsCalls [] = [.writeMulti []] ∧
    (∀ res, readVarsOutcome [] (.ok res) = .ok []) ∧
    (∀ res, writeVarsOutcome [] (.ok res) = .ok []) ∧
    (∀ resp, readVarsEmits [] resp = [] ∧ writeVarsEmits [] resp = []) := by
  refine ⟨fun DBNr => rfl, fun resp => ⟨rfl, rfl⟩, rfl, rfl, ?_, ?_, ?_⟩
  · intro res
    simp [readVarsOutcome, batchErrs, readVarsOk]
  · intro res
    simp [writeVarsOutcome, batchErrs]
  · intro resp
    cases resp <;> simp [readVarsEmits, writeVarsEmits, readVarsOk]

/-- Claim C2, counterexample: `writeVar` given a data-block descriptor with no
data-block number does not fail with an `InvalidDescriptor` error before the
transport call — it reaches the transport and, on success, resolves
normally. -/
theorem C2_counterexample :
    writeVarCalls { type := .INT, area := .db, start := 0, value := some (.num 1) } ≠ [] ∧
    writeVarOutcome { type := .INT, area := .db, start := 0, value := some (.num 1) }
        (.ok [{ Result := 0 }]) =
      .ok (some { type := .INT, area := .db, start := 0, value := some (.num 1) }) := by
  refine ⟨by decide, ?_⟩
  rfl

/-- Claim C2, amended: `readVar` rejects a data-block descriptor whose `dbnr`
is absent (JS-falsy) with `InvalidDescriptor` before any transport call;
`writeVar` performs no such validation: whenever its descriptor's value
formats without throwing it reaches `WriteMultiVars` — even for a data-block
descriptor with no data-block number — and the only way it can fail before
the transport call is the formatter itself throwing (e.g. a BYTE value 300 or
a CHAR descriptor with an absent value), which is not descriptor validation.
Both delegate to the batch form with a one-element list and unwrap the single
result. -/
theorem C2_amended (v : S7DbVarType) (r : ItemResult)
    (hg : readVarGuard v = false) (hr : r.Result = 0)
    (hf : (jsFormatter v.type v.value).isNone = false) :
    readVarOutcome v (.ok [r]) =
      .ok (some { v with value := Datatypes.parser v.type r.Data 0 0 }) ∧
    writeVarRun v (.ok [r]) = .ok (some v) ∧
    writeVarCalls v = [.writeMulti [planWriteItem v]] ∧
    (∀ w : S7DbVarType, w.area = .db → w.dbnr = none →
      readVarCalls w = [] ∧
      ∀ resp, readVarOutcome w resp = .error .invalidDescriptor) ∧
    (∀ w : S7DbVarType, w.area = .db → w.dbnr = none →
      (jsFormatter w.type w.value).isNone = false →
      writeVarCalls w = [.writeMulti [planWriteItem w]]) ∧
    writeVarCalls
      { type := .BYTE, area := .db, dbnr := some 1, start := 0, value := some (.num 300) }
      = [] ∧
    (∀ resp, writeVarRun
      { type := .BYTE, area := .db, dbnr := some 1, start := 0, value := some (.num 300) }
      resp = .error .formatThrow) ∧
    writeVarCalls { type := .CHAR, area := .db, dbnr := some 1, start := 0 } = [] ∧
    (∀ resp, writeVarRun { type := .CHAR, area := .db, dbnr := some 1, start := 0 } resp
      = .error .formatThrow) := by
  have hth : writeVarsThrows [v] = false := by
    simp [writeVarsThrows, hf]
  refine ⟨?_, ?_, ?_, ?_, ?_, by decide, fun resp => rfl, by decide, fun resp => rfl⟩
  · simp [readVarOutcome, hg, readVarsOutcome, batchErrs, hr, readVarsOk, Except.map]
  · simp [writeVarRun, writeVarsRun, hth, writeVarOutcome, writeVarsOutcome, batchErrs,
      hr, Except.map]
  · simp [writeVarCalls, writeVarsCalls, hth, writeVarsPlan]
  · intro w ha hd
    have hw : readVarGuard w = true := by
      simp [readVarGuard, ha, hd, jsFalsy]
    exact ⟨by simp [readVarCalls, hw], fun resp => by simp [readVarOutcome, hw]⟩
  · intro w ha hd hfw
    have hthw : writeVarsThrows [w] = false := by
      simp [writeVarsThrows, hfw]
    simp [writeVarCalls, writeVarsCalls, hthw, writeVarsPlan]

/-- Claim C2 witness: instantiating the amended claim at a flag-memory INT
descriptor carrying value 7 (whose formatter does not throw) and a
zero-status item result. -/
theorem C2_witness :
    readVarGuard { type := .INT, area := .mk, start := 3, value := some (.num 7) } = false ∧
    (0 : Nat) = ItemResult.Result { Result := 0, Data := [0, 5] } ∧
    (jsFormatter .INT (some (.num 7))).isNone = false ∧
    readVarOutcome { type := .INT, area := .mk, start := 3, value := some (.num 7) }
        (.ok [{ Result := 0, Data := [0, 5] }]) =
      .ok (some { type := .INT, area := .mk, start := 3, value := some (.num 5) }) ∧
    writeVarRun { type := .INT, area := .mk, start := 3, value := some (.num 7) }
        (.ok [{ Result := 0, Data := [0, 5] }]) =
      .ok (some { type := .INT, area := .mk, start := 3, value := some (.num 7) }) := by
  refine ⟨by decide, rfl, by decide, ?_, ?_⟩
  all_goals
    have h := C2_amended { type := .INT, area := .mk, start := 3, value := some (.num 7) }
      { Result := 0, Data := [0, 5] } (by decide) rfl (by decide)
    first
      | exact h.1
      | exact h.2.1

/-- Claim C4, counterexample: the `retryDelay` closure variable of
`autoConnect` is never reset.  With base interval 2000 and max delay 60000,
after a failed retry (factor 1.5), a successful connect, a non-manual
disconnect and another failed retry, the code's next delay is 4500 —
continuing from the grown value — while the spec's reset-on-success reading
yields 3000. -/
theorem C4_counterexample :
    acDelay 2000 60000 [.retryFail (3 / 2), .connectOk, .disconnectNF, .retryFail (3 / 2)]
      = 4500 ∧
    acDelaySpec 2000 60000 [.retryFail (3 / 2), .connectOk, .disconnectNF, .retryFail (3 / 2)]
      = 3000 ∧
    (4500 : Nat) ≠ 3000 := by
  have h1 : ((6001 : Rat) / 2).floor = 3000 := by
    rw [Rat.floor_def', ← Rat.floor_def, Int.floor_eq_iff]
    norm_num
  have h2 : ((9001 : Rat) / 2).floor = 4500 := by
    rw [Rat.floor_def', ← Rat.floor_def, Int.floor_eq_iff]
    norm_num
  refine ⟨?_, ?_, by decide⟩
  · simp only [acDelay, acStep, nextRetryDelay, jsRound, List.foldl]
    norm_num [h1]
    norm_num [show Int.toNat 3000 = 3000 from rfl, h2]
    rfl
  · simp only [acDelaySpec, acStepSpec, nextRetryDelay, jsRound, List.foldl]
    norm_num [h1]
    rfl

/-- Claim C4, amended: the retry delay starts at `connectionCheckInterval`;
each failed retry replaces it by `Math.round(delay * r)` (with `r` the drawn
random factor) clamped to `maxRetryDelay`; and the delay is never reset — a
successful connect and the non-manual disconnect that triggers the next retry
both leave the accumulated delay unchanged, so the next retry sequence
continues from it rather than from the base interval. -/
theorem C4_amended (base maxD d : Nat) (r : Rat) (evs₁ evs₂ : List AcEvent) :
    acDelay base maxD [] = base ∧
    acStep maxD d (.retryFail r) = min (jsRound (d * r)) maxD ∧
    acStep maxD d .connectOk = d ∧
    acStep maxD d .disconnectNF = d ∧
    acDelay base maxD (evs₁ ++ .connectOk :: .disconnectNF :: evs₂) =
      acDelay (acDelay base maxD evs₁) maxD evs₂ := by
  refine ⟨rfl, rfl, rfl, rfl, ?_⟩
  simp [acDelay, List.foldl_append, acStep]

/-- Claim C7, counterexample: in the codec registry, `REAL` carries the
distinct `S7WLReal` word-length code, not the double-word code; `BOOL` carries
the bit code, not the byte code; and the per-item batch planner does use
BOOL's bit code (the contiguous-range path uses no word-length code at
all). -/
theorem C7_counterexample :
    Datatypes.wordLen .REAL ≠ .S7WLDWord ∧
    Datatypes.wordLen .BOOL ≠ .S7WLByte ∧
    (planReadItem { type := .BOOL, area := .db, dbnr := some 1, start := 5, bit := some 2 }).WordLen
      = S7WordLen.code .S7WLBit := by
  decide

/-- Claim C7, amended: the registry fixes BOOL/CHAR/BYTE at width 1,
WORD/INT at width 2 and DWORD/DINT/REAL at width 4; the word-length codes are
byte for CHAR/BYTE, word for WORD/INT, double-word for DWORD/DINT, the
distinct bit code for BOOL and the distinct real code for REAL.  The per-item
batch path takes each type's registry code unchanged — so BOOL items go out
with the bit code — while the contiguous-range path issues a `DBRead` carrying
no word-length code at all. -/
theorem C7_amended (v : S7DbVarType) (DBNr : Nat) (vars : List S7DbVarAreaDbRead) :
    Datatypes.bytes .BOOL = 1 ∧ Datatypes.bytes .CHAR = 1 ∧ Datatypes.bytes .BYTE = 1 ∧
    Datatypes.bytes .WORD = 2 ∧ Datatypes.bytes .INT = 2 ∧
    Datatypes.bytes .DWORD = 4 ∧ Datatypes.bytes .DINT = 4 ∧ Datatypes.bytes .REAL = 4 ∧
    Datatypes.wordLen .CHAR = .S7WLByte ∧ Datatypes.wordLen .BYTE = .S7WLByte ∧
    Datatypes.wordLen .WORD = .S7WLWord ∧ Datatypes.wordLen .INT = .S7WLWord ∧
    Datatypes.wordLen .DWORD = .S7WLDWord ∧ Datatypes.wordLen .DINT = .S7WLDWord ∧
    Datatypes.wordLen .BOOL = .S7WLBit ∧ Datatypes.wordLen .REAL = .S7WLReal ∧
    (planReadItem v).WordLen = (Datatypes.wordLen v.type).code ∧
    (planWriteItem v).WordLen = (Datatypes.wordLen v.type).code ∧
    (readDBCalls DBNr vars = [] ∨
      ∃ offset length, readDBCalls DBNr vars = [.dbRead DBNr offset length]) := by
  refine ⟨rfl, rfl, rfl, rfl, rfl, rfl, rfl, rfl, rfl, rfl, rfl, rfl, rfl, rfl, rfl, rfl,
    rfl, rfl, ?_⟩
  unfold readDBCalls
  cases readDBPlan vars with
  | none => exact Or.inl rfl
  | some p => exact Or.inr ⟨p.1, p.2, rfl⟩

/-- Claim C10: a BOOL descriptor whose `bit` field is absent is planned with
`Start = v.start * 8 + undefined`, i.e. `NaN`, by both batch planners, and the
planned item is passed to the transport with no validation error raised
before the call (the BOOL write formatter is a total ternary, so the write
path reaches the transport too). -/
theorem C10 (v : S7DbVarType) (ht : v.type = .BOOL) (hb : v.bit = none) :
    (planReadItem v).Start = .nan ∧
    (planWriteItem v).Start = .nan ∧
    readVarsCalls [v] = [.readMulti [planReadItem v]] ∧
    writeVarsCalls [v] = [.writeMulti [planWriteItem v]] := by
  have hth : writeVarsThrows [v] = false := by
    simp [writeVarsThrows, jsFormatter, ht]
  refine ⟨?_, ?_, rfl, ?_⟩
  · simp [planReadItem, planStart, ht, hb, jsField, JsNum.add]
  · simp [planWriteItem, planStart, ht, hb, jsField, JsNum.add]
  · simp [writeVarsCalls, hth, writeVarsPlan]

/-- Claim C10 witness: a concrete BOOL descriptor with no `bit` field is
planned with a `NaN` start. -/
theorem C10_witness :
    S7DbVarType.type { type := .BOOL, area := .db, dbnr := some 1, start := 5 } = .BOOL ∧
    S7DbVarType.bit { type := .BOOL, area := .db, dbnr := some 1, start := 5 } = none ∧
    (planReadItem { type := .BOOL, area := .db, dbnr := some 1, start := 5 }).Start = .nan := by
  refine ⟨rfl, rfl, ?_⟩
  exact (C10 { type := .BOOL, area := .db, dbnr := some 1, start := 5 } rfl rfl).1

/-- Every primitive codec has positive byte width. -/
theorem Datatypes.bytes_pos (t : S7Type) : 1 ≤ Datatypes.bytes t := by
  cases t <;> decide

/-- A fold of `min a (f x)` is a lower bound of its seed and of every mapped
element. -/
theorem foldl_min_le {α : Type} (f : α → Nat) (l : List α) (o : Nat) :
    l.foldl (fun a x => min a (f x)) o ≤ o ∧
      ∀ x ∈ l, l.foldl (fun a x => min a (f x)) o ≤ f x := by
  induction l generalizing o with
  | nil => simp
  | cons y l ih =>
    refine ⟨(ih (min o (f y))).1.trans (Nat.min_le_left _ _), ?_⟩
    intro x hx
    rcases List.mem_cons.mp hx with h | h
    · subst h
      exact (ih (min o (f x))).1.trans (Nat.min_le_right _ _)
    · exact (ih (min o (f y))).2 x h

/-- A fold of `min a (f x)` is attained: it is the seed or a mapped element. -/
theorem foldl_min_mem {α : Type} (f : α → Nat) (l : List α) (o : Nat) :
    l.foldl (fun a x => min a (f x)) o = o ∨
      ∃ x ∈ l, l.foldl (fun a x => min a (f x)) o = f x := by
  induction l generalizing o with
  | nil => exact Or.inl rfl
  | cons y l ih =>
    rcases ih (min o (f y)) with h | ⟨x, hx, hfx⟩
    · rcases Nat.le_total o (f y) with hle | hle
      · exact Or.inl (h.trans (Nat.min_eq_left hle))
      · exact Or.inr ⟨y, List.mem_cons_self y l, h.trans (Nat.min_eq_right hle)⟩
    · exact Or.inr ⟨x, List.mem_cons_of_mem y hx, hfx⟩

/-- A fold of `max a (f x)` is an upper bound of its seed and of every mapped
element. -/
theorem foldl_max_ge {α : Type} (f : α → Nat) (l : List α) (e : Nat) :
    e ≤ l.foldl (fun a x => max a (f x)) e ∧
      ∀ x ∈ l, f x ≤ l.foldl (fun a x => max a (f x)) e := by
  induction l generalizing e with
  | nil => simp
  | cons y l ih =>
    refine ⟨(Nat.le_max_left _ _).trans (ih (max e (f y))).1, ?_⟩
    intro x hx
    rcases List.mem_cons.mp hx with h | h
    · subst h
      exact (Nat.le_max_right _ _).trans (ih (max e (f x))).1
    · exact (ih (max e (f y))).2 x h

/-- A fold of `max a (f x)` is attained: it is the seed or a mapped element. -/
theorem foldl_max_mem {α : Type} (f : α → Nat) (l : List α) (e : Nat) :
    l.foldl (fun a x => max a (f x)) e = e ∨
      ∃ x ∈ l, l.foldl (fun a x => max a (f x)) e = f x := by
  induction l generalizing e with
  | nil => exact Or.inl rfl
  | cons y l ih =>
    rcases ih (max e (f y)) with h | ⟨x, hx, hfx⟩
    · rcases Nat.le_total e (f y) with hle | hle
      · exact Or.inr ⟨y, List.mem_cons_self y l, h.trans (Nat.max_eq_right hle)⟩
      · exact Or.inl (h.trans (Nat.max_eq_left hle))
    · exact Or.inr ⟨x, List.mem_cons_of_mem y hx, hfx⟩

/-- The second component of the `readDB` scan is the fold of `min` over the
descriptor starts. -/
theorem readDBScan_snd (vars : List S7DbVarAreaDbRead) (e o : Nat) :
    (List.foldl readDBScanStep (e, o) vars).2 =
      vars.foldl (fun a v => min a v.start) o := by
  induction vars generalizing e o with
  | nil => rfl
  | cons v vs ih =>
    simp only [List.foldl_cons, readDBScanStep]
    rw [ih]
    congr 1
    rcases Nat.lt_or_ge v.start o with h | h
    · simp [h, Nat.min_eq_right (Nat.le_of_lt h)]
    · have : ¬ v.start < o := Nat.not_lt.mpr h
      simp [this, Nat.min_eq_left h]

/-- The first component of the `readDB` scan is the fold of `max` over the
descriptor ends. -/
theorem readDBScan_fst (vars : List S7DbVarAreaDbRead) (e o : Nat) :
    (List.foldl readDBScanStep (e, o) vars).1 =
      vars.foldl (fun a v => max a (v.start + Datatypes.bytes v.type)) e := by
  induction vars generalizing e o with
  | nil => rfl
  | cons v vs ih =>
    simp only [List.foldl_cons, readDBScanStep]
    rw [ih]
    congr 1
    rcases Nat.lt_or_ge e (v.start + Datatypes.bytes v.type) with h | h
    · simp [h, Nat.max_eq_right (Nat.le_of_lt h)]
    · have : ¬ e < v.start + Datatypes.bytes v.type := Nat.not_lt.mpr h
      simp [this, Nat.max_eq_left h]

/-- Claim C5: for every non-empty descriptor list, `readDB` plans the single
range with `offset` the minimum `start` over the descriptors (it is a lower
bound and is attained) and `offset + length` the maximum `start + typeWidth`
(an upper bound, attained), and decodes each descriptor at buffer position
`start - offset` with its bit offset. -/
theorem C5 (vars : List S7DbVarAreaDbRead) (hne : vars ≠ [])
    (hs : ∀ v ∈ vars, v.start ≤ maxSafeInteger) :
    ∃ offset length, readDBPlan vars = some (offset, length) ∧
      (∀ v ∈ vars, offset ≤ v.start ∧
        v.start + Datatypes.bytes v.type ≤ offset + length) ∧
      (∃ v ∈ vars, v.start = offset) ∧
      (∃ v ∈ vars, v.start + Datatypes.bytes v.type = offset + length) ∧
      (∀ buf, readDBDecode vars offset buf = vars.map fun v =>
        { v with value := Datatypes.parser v.type buf (v.start - offset) (v.bit.getD 0) }) := by
  obtain ⟨v₀, rest, rfl⟩ := List.exists_cons_of_ne_nil hne
  have hO : (readDBScan (v₀ :: rest)).2 =
      (v₀ :: rest).foldl (fun a v => min a v.start) maxSafeInteger :=
    readDBScan_snd (v₀ :: rest) 0 maxSafeInteger
  have hE : (readDBScan (v₀ :: rest)).1 =
      (v₀ :: rest).foldl
        (fun a v => max a (v.start + Datatypes.bytes v.type)) 0 :=
    readDBScan_fst (v₀ :: rest) 0 maxSafeInteger
  have hminle := foldl_min_le (fun v : S7DbVarAreaDbRead => v.start)
    (v₀ :: rest) maxSafeInteger
  have hminmem := foldl_min_mem (fun v : S7DbVarAreaDbRead => v.start)
    (v₀ :: rest) maxSafeInteger
  have hmaxge := foldl_max_ge
    (fun v : S7DbVarAreaDbRead => v.start + Datatypes.bytes v.type) (v₀ :: rest) 0
  have hmaxmem := foldl_max_mem
    (fun v : S7DbVarAreaDbRead => v.start + Datatypes.bytes v.type) (v₀ :: rest) 0
  have hov : ∀ v ∈ v₀ :: rest, (readDBScan (v₀ :: rest)).2 ≤ v.start := by
    intro v hv
    rw [hO]
    exact hminle.2 v hv
  have hev : ∀ v ∈ v₀ :: rest,
      v.start + Datatypes.bytes v.type ≤ (readDBScan (v₀ :: rest)).1 := by
    intro v hv
    rw [hE]
    exact hmaxge.2 v hv
  have homem : ∃ v ∈ v₀ :: rest, v.start = (readDBScan (v₀ :: rest)).2 := by
    rcases hminmem with h | ⟨v, hv, hfv⟩
    · refine ⟨v₀, List.mem_cons_self _ _, ?_⟩
      have h1 := hminle.2 v₀ (List.mem_cons_self _ _)
      have h2 := hs v₀ (List.mem_cons_self _ _)
      rw [hO]
      omega
    · exact ⟨v, hv, by rw [hO, hfv]⟩
  have hemem : ∃ v ∈ v₀ :: rest,
      v.start + Datatypes.bytes v.type = (readDBScan (v₀ :: rest)).1 := by
    rcases hmaxmem with h | ⟨v, hv, hfv⟩
    · exfalso
      have h1 := hmaxge.2 v₀ (List.mem_cons_self _ _)
      have h2 := Datatypes.bytes_pos v₀.type
      omega
    · exact ⟨v, hv, by rw [hE, hfv]⟩
  have hoe : (readDBScan (v₀ :: rest)).2 ≤ (readDBScan (v₀ :: rest)).1 := by
    have h1 := hov v₀ (List.mem_cons_self _ _)
    have h2 := hev v₀ (List.mem_cons_self _ _)
    omega
  refine ⟨(readDBScan (v₀ :: rest)).2,
    (readDBScan (v₀ :: rest)).1 - (readDBScan (v₀ :: rest)).2, ?_, ?_, homem, ?_,
    fun buf => rfl⟩
  · rw [readDBPlan, if_neg (by simp)]
  · intro v hv
    have h1 := hov v hv
    have h2 := hev v hv
    exact ⟨h1, by omega⟩
  · obtain ⟨v, hv, hve⟩ := hemem
    exact ⟨v, hv, by omega⟩

/-- Claim C5 witness: the spec's example — a BOOL at byte 4 bit 2 and an INT
at byte 13 — plans `offset = 4`, `length = 11` (13 + 2 - 4). -/
theorem C5_witness :
    readDBPlan [{ type := .BOOL, start := 4, bit := some 2 }, { type := .INT, start := 13 }]
      = some (4, 11) ∧
    ∃ offset length,
      readDBPlan [{ type := .BOOL, start := 4, bit := some 2 },
                  { type := .INT, start := 13 }] = some (offset, length) ∧
      ∀ v ∈ [({ type := .BOOL, start := 4, bit := some 2 } : S7DbVarAreaDbRead),
             { type := .INT, start := 13 }],
        offset ≤ v.start ∧ v.start + Datatypes.bytes v.type ≤ offset + length := by
  refine ⟨by decide, ?_⟩
  obtain ⟨o, l, h1, h2, -, -, -⟩ :=
    C5 [{ type := .BOOL, start := 4, bit := some 2 }, { type := .INT, start := 13 }]
      (by decide) (by decide)
  exact ⟨o, l, h1, h2⟩

/-- Claim C6: batched-item planning maps each descriptor to exactly one item,
positionally (the planned list is in bijective order-preserving
correspondence with the input list), with `Amount = 1`, bit-granular start
`byteStart * 8 + bitOffset` for BOOL and byte-granular start `byteStart`
otherwise; the spec's examples start 42 for `{BOOL, start 5, bit 2}` and 13
for `{INT, start 13}` hold. -/
theorem C6 (vars : List S7DbVarType) :
    List.Forall₂ (fun v (item : MultiVarRead) =>
        item.Amount = 1 ∧
        item.Area = S7AreaCode v.area ∧
        item.DBNumber = v.dbnr ∧
        (∀ b : Nat, v.type = .BOOL → v.bit = some b → item.Start = .num (v.start * 8 + b)) ∧
        (v.type ≠ .BOOL → item.Start = .num v.start))
      vars (readVarsPlan vars) ∧
    List.Forall₂ (fun v (item : MultiVarWrite) =>
        item.Amount = 1 ∧
        item.Area = S7AreaCode v.area ∧
        item.DBNumber = v.dbnr ∧
        (∀ b : Nat, v.type = .BOOL → v.bit = some b → item.Start = .num (v.start * 8 + b)) ∧
        (v.type ≠ .BOOL → item.Start = .num v.start))
      vars (writeVarsPlan vars) ∧
    planStart { type := .BOOL, area := .db, start := 5, bit := some 2 } = .num 42 ∧
    planStart { type := .INT, area := .db, start := 13 } = .num 13 := by
  have hstart : ∀ v : S7DbVarType,
      (∀ b : Nat, v.type = .BOOL → v.bit = some b → planStart v = .num (v.start * 8 + b)) ∧
      (v.type ≠ .BOOL → planStart v = .num v.start) := by
    intro v
    constructor
    · intro b ht hb
      simp [planStart, ht, hb, jsField, JsNum.add]
    · intro ht
      simp [planStart, ht]
  refine ⟨?_, ?_, by decide, by decide⟩
  · rw [readVarsPlan, List.forall₂_map_right_iff]
    rw [List.forall₂_same]
    intro v _
    exact ⟨rfl, rfl, rfl, (hstart v).1, (hstart v).2⟩
  · rw [writeVarsPlan, List.forall₂_map_right_iff]
    rw [List.forall₂_same]
    intro v _
    exact ⟨rfl, rfl, rfl, (hstart v).1, (hstart v).2⟩

/-- On equally long lists, the collected error list is empty exactly when
every item status code is zero. -/
theorem batchErrs_eq_nil_iff (vars : List S7DbVarType) (res : List ItemResult)
    (hlen : res.length = vars.length) :
    batchErrs vars res = [] ↔ ∀ r ∈ res, r.Result = 0 := by
  induction vars generalizing res with
  | nil =>
    cases res with
    | nil => simp [batchErrs]
    | cons r rs => simp at hlen
  | cons v vs ih =>
    cases res with
    | nil => simp at hlen
    | cons r rs =>
      have hlen2 : rs.length = vs.length := by simpa using hlen
      by_cases h : r.Result = 0
      · simp [batchErrs, h, ← ih rs hlen2, batchErrs]
      · simp [batchErrs, h]

/-- On equally long lists, the collected error list is exactly the status
codes of the failing items, in order. -/
theorem batchErrs_eq_filter (vars : List S7DbVarType) (res : List ItemResult)
    (hlen : res.length = vars.length) :
    batchErrs vars res = (res.filter fun r => r.Result ≠ 0).map ItemResult.Result := by
  induction vars generalizing res with
  | nil =>
    cases res with
    | nil => simp [batchErrs]
    | cons r rs => simp at hlen
  | cons v vs ih =>
    cases res with
    | nil => simp at hlen
    | cons r rs =>
      have hlen2 : rs.length = vs.length := by simpa using hlen
      by_cases h : r.Result = 0
      · simp [batchErrs, h, List.filter_cons] at *
        exact ih rs hlen2
      · simp [batchErrs, h, List.filter_cons] at *
        exact ih rs hlen2

/-- On equally long all-success lists, `readVars` enriches every descriptor,
in order. -/
theorem readVarsOk_all_zero (vars : List S7DbVarType) (res : List ItemResult)
    (hlen : res.length = vars.length) (hz : ∀ r ∈ res, r.Result = 0) :
    readVarsOk vars res = (vars.zip res).map (fun p =>
      { p.1 with value := Datatypes.parser p.1.type p.2.Data 0 0 }) ∧
    (readVarsOk vars res).length = vars.length := by
  induction vars generalizing res with
  | nil =>
    cases res with
    | nil => simp [readVarsOk]
    | cons r rs => simp at hlen
  | cons v vs ih =>
    cases res with
    | nil => simp at hlen
    | cons r rs =>
      have hlen2 : rs.length = vs.length := by simpa using hlen
      have hr : r.Result = 0 := hz r (List.mem_cons_self _ _)
      have hz2 : ∀ x ∈ rs, x.Result = 0 := fun x hx => hz x (List.mem_cons_of_mem _ hx)
      obtain ⟨ih1, ih2⟩ := ih rs hlen2 hz2
      constructor
      · simp [readVarsOk, hr] at *
        exact ih1
      · simp [readVarsOk, hr] at *
        simpa [readVarsOk] using ih2

/-- On equally long all-success lists, the `writeVars` demux returns exactly
the input descriptors. -/
theorem writeVarsOk_all_zero (vars : List S7DbVarType) (res : List ItemResult)
    (hlen : res.length = vars.length) (hz : ∀ r ∈ res, r.Result = 0) :
    (vars.zip res).filterMap (fun p => if p.2.Result = 0 then some p.1 else none) = vars := by
  induction vars generalizing res with
  | nil => simp
  | cons v vs ih =>
    cases res with
    | nil => simp at hlen
    | cons r rs =>
      have hlen2 : rs.length = vs.length := by simpa using hlen
      have hr : r.Result = 0 := hz r (List.mem_cons_self _ _)
      have hz2 : ∀ x ∈ rs, x.Result = 0 := fun x hx => hz x (List.mem_cons_of_mem _ hx)
      simp [hr]
      exact ih rs hlen2 hz2

/-- Claim C8: for a batch read or write whose transport response carries at
least one non-zero item status, the whole call fails with the batch error
listing exactly the failing codes (in order), and no descriptor is returned;
when every status is zero, the call resolves the full (for reads, enriched)
descriptor list. -/
theorem C8 (vars : List S7DbVarType) (res : List ItemResult)
    (hlen : res.length = vars.length) :
    ((∃ r ∈ res, r.Result ≠ 0) →
      readVarsOutcome vars (.ok res) = .error (.batch (batchErrs vars res)) ∧
      writeVarsOutcome vars (.ok res) = .error (.batch (batchErrs vars res)) ∧
      batchErrs vars res = (res.filter fun r => r.Result ≠ 0).map ItemResult.Result ∧
      batchErrs vars res ≠ []) ∧
    ((∀ r ∈ res, r.Result = 0) →
      readVarsOutcome vars (.ok res) = .ok (readVarsOk vars res) ∧
      (readVarsOk vars res).length = vars.length ∧
      writeVarsOutcome vars (.ok res) = .ok vars) := by
  constructor
  · rintro ⟨r, hr, hnz⟩
    have hne : batchErrs vars res ≠ [] := by
      intro hnil
      exact hnz (((batchErrs_eq_nil_iff vars res hlen).mp hnil) r hr)
    refine ⟨?_, ?_, batchErrs_eq_filter vars res hlen, hne⟩
    · simp [readVarsOutcome, hne]
    · simp [writeVarsOutcome, hne]
  · intro hz
    have hnil : batchErrs vars res = [] := (batchErrs_eq_nil_iff vars res hlen).mpr hz
    obtain ⟨-, hlen2⟩ := readVarsOk_all_zero vars res hlen hz
    refine ⟨by simp [readVarsOutcome, hnil], hlen2, ?_⟩
    simp [writeVarsOutcome, hnil, writeVarsOk_all_zero vars res hlen hz]

/-- Claim C8 witness: a two-item batch whose second item fails with code 5
rejects both the read and the write call with a batch error listing `[5]`,
returning nothing. -/
theorem C8_witness :
    ((([{ Result := 0, Data := [1] }, { Result := 5 }] : List ItemResult).length) =
      ([{ type := .BYTE, area := .db, dbnr := some 1, start := 0 },
        { type := .BYTE, area := .db, dbnr := some 1, start := 1 }] :
          List S7DbVarType).length) ∧
    batchErrs
      [{ type := .BYTE, area := .db, dbnr := some 1, start := 0 },
       { type := .BYTE, area := .db, dbnr := some 1, start := 1 }]
      [{ Result := 0, Data := [1] }, { Result := 5 }] = [5] ∧
    readVarsOutcome
      [{ type := .BYTE, area := .db, dbnr := some 1, start := 0 },
       { type := .BYTE, area := .db, dbnr := some 1, start := 1 }]
      (.ok [{ Result := 0, Data := [1] }, { Result := 5 }]) =
        .error (.batch (batchErrs
          [{ type := .BYTE, area := .db, dbnr := some 1, start := 0 },
           { type := .BYTE, area := .db, dbnr := some 1, start := 1 }]
          [{ Result := 0, Data := [1] }, { Result := 5 }])) := by
  refine ⟨rfl, by decide, ?_⟩
  have h := (C8
    [{ type := .BYTE, area := .db, dbnr := some 1, start := 0 },
     { type := .BYTE, area := .db, dbnr := some 1, start := 1 }]
    [{ Result := 0, Data := [1] }, { Result := 5 }] rfl).1
  exact (h ⟨{ Result := 5 }, by decide, by decide⟩).1

/-- Claim C3, counterexample: a fully successful one-descriptor `writeVars`
call resolves normally but emits zero `value` notifications — its demux loop
contains no emit — contradicting one notification per written descriptor. -/
theorem C3_counterexample :
    writeVarsOutcome
      [{ type := .BOOL, area := .db, dbnr := some 1, start := 5, bit := some 2,
         value := some (.bool true) }]
      (.ok [{ Result := 0 }]) =
      .ok [{ type := .BOOL, area := .db, dbnr := some 1, start := 5, bit := some 2,
             value := some (.bool true) }] ∧
    writeVarsEmits
      [{ type := .BOOL, area := .db, dbnr := some 1, start := 5, bit := some 2,
         value := some (.bool true) }]
      (.ok [{ Result := 0 }]) = [] := by
  exact ⟨rfl, rfl⟩

/-- Claim C3, amended: `readDB` emits exactly one `value` notification per
descriptor on a successful range read (the emitted list is exactly the
resolved enriched list), and `readVars` emits exactly one per item whose
status is zero (all of them when the batch fully succeeds); `writeVars` emits
no `value` notifications at all. -/
theorem C3_amended (dvars : List S7DbVarAreaDbRead) (buf : List Nat)
    (vars : List S7DbVarType) (res : List ItemResult)
    (resp : Except Nat (List ItemResult))
    (hlen : res.length = vars.length) (hz : ∀ r ∈ res, r.Result = 0) :
    readDBEmits dvars (.ok buf) = readDBDecode dvars (readDBScan dvars).2 buf ∧
    (readDBEmits dvars (.ok buf)).length = dvars.length ∧
    readDBOutcome dvars (.ok buf) = .ok (readDBEmits dvars (.ok buf)) ∧
    readVarsEmits vars (.ok res) = readVarsOk vars res ∧
    (readVarsEmits vars (.ok res)).length = vars.length ∧
    readVarsOutcome vars (.ok res) = .ok (readVarsEmits vars (.ok res)) ∧
    writeVarsEmits vars resp = [] := by
  have hnil : batchErrs vars res = [] := (batchErrs_eq_nil_iff vars res hlen).mpr hz
  have hlen2 := (readVarsOk_all_zero vars res hlen hz).2
  refine ⟨?_, ?_, ?_, rfl, ?_, ?_, rfl⟩
  · by_cases h : dvars = []
    · subst h
      simp [readDBEmits, readDBDecode]
    · simp [readDBEmits, h]
  · by_cases h : dvars = []
    · subst h
      simp [readDBEmits]
    · simp [readDBEmits, h, readDBDecode]
  · by_cases h : dvars = []
    · subst h
      simp [readDBOutcome, readDBEmits]
    · simp [readDBOutcome, readDBEmits, h]
  · simpa [readVarsEmits] using hlen2
  · simp [readVarsOutcome, readVarsEmits, hnil]

/-- Claim C3 witness: a concrete all-success two-descriptor read batch emits
one notification per descriptor, and the emitted list is the resolved one. -/
theorem C3_witness :
    (([{ Result := 0, Data := [1] }, { Result := 0, Data := [9] }] :
        List ItemResult).length =
      ([{ type := .BYTE, area := .db, dbnr := some 1, start := 0 },
        { type := .BYTE, area := .db, dbnr := some 1, start := 1 }] :
          List S7DbVarType).length) ∧
    (∀ r ∈ ([{ Result := 0, Data := [1] }, { Result := 0, Data := [9] }] :
        List ItemResult), r.Result = 0) ∧
    (readVarsEmits
      [{ type := .BYTE, area := .db, dbnr := some 1, start := 0 },
       { type := .BYTE, area := .db, dbnr := some 1, start := 1 }]
      (.ok [{ Result := 0, Data := [1] }, { Result := 0, Data := [9] }])).length = 2 ∧
    writeVarsEmits
      [{ type := .BYTE, area := .db, dbnr := some 1, start := 0 }]
      (.ok [{ Result := 0 }]) = [] := by
  refine ⟨rfl, by decide, ?_, rfl⟩
  have h := C3_amended [] []
    [{ type := .BYTE, area := .db, dbnr := some 1, start := 0 },
     { type := .BYTE, area := .db, dbnr := some 1, start := 1 }]
    [{ Result := 0, Data := [1] }, { Result := 0, Data := [9] }]
    (.ok [{ Result := 0 }]) rfl (by decide)
  exact h.2.2.2.2.1

/-- Claim C9: for every supported primitive type and representable value,
decoding the bytes produced by encoding the value yields the value back
(`decode(encode(v)) == v`), at offset 0 and bit 0 — for BOOL the encoder
produces a whole fresh byte carrying the value in bit 0, so the targeted bit
round-trips (sibling bits of a shared byte on the controller are outside the
codec's scope). -/
theorem C9 (t : S7Type) (v : JsValue) (h : representable t v) :
    (Datatypes.formatter t v).bind (fun buf => Datatypes.parser t buf 0 0) = some v := by
  cases t <;> cases v <;> simp only [representable] at h
  case BOOL.bool b => cases b <;> decide
  case BYTE.num x =>
    simp only [Datatypes.formatter, Datatypes.parser, if_pos h]
    simp [bufReadUInt8, Int.toNat_of_nonneg h.1]
  case WORD.num x =>
    simp only [Datatypes.formatter, Datatypes.parser, if_pos h]
    simp only [beBytes, Option.bind_some, bufReadUInt16BE]
    norm_num
    omega
  case DWORD.num x =>
    simp only [Datatypes.formatter, Datatypes.parser, if_pos h]
    simp only [beBytes, Option.bind_some, bufReadUInt32BE]
    norm_num
    omega
  case CHAR.str c =>
    simp only [Datatypes.formatter, Datatypes.parser]
    simp [bufReadUInt8]
    omega
  case INT.num x =>
    simp only [Datatypes.formatter, Datatypes.parser, if_pos h]
    simp only [beBytes, Option.bind_some, bufReadInt16BE, bufReadUInt16BE]
    norm_num [toSigned]
    omega
  case DINT.num x =>
    simp only [Datatypes.formatter, Datatypes.parser, if_pos h]
    simp only [beBytes, Option.bind_some, bufReadInt32BE, bufReadUInt32BE]
    norm_num [toSigned]
    omega
  case REAL.real p =>
    simp only [Datatypes.formatter, Datatypes.parser, if_pos h]
    simp only [beBytes, Option.bind_some, bufReadUInt32BE]
    norm_num
    omega

/-- Claim C9 witness: the INT value −5 encodes to big-endian two's-complement
bytes `[0xFF, 0xFB]` and decodes back to −5. -/
theorem C9_witness :
    representable .INT (.num (-5)) ∧
    Datatypes.formatter .INT (.num (-5)) = some [0xFF, 0xFB] ∧
    (Datatypes.formatter .INT (.num (-5))).bind
      (fun buf => Datatypes.parser .INT buf 0 0) = some (.num (-5)) := by
  refine ⟨by decide, by decide, ?_⟩
  exact C9 .INT (.num (-5)) (by decide)
